import Mathlib

/-!
A shallow embedding of the Company Operations backend (`main.py`, `schemas.py`).

Modelling conventions:
* Python strings are Lean `String` (a structure over `List Char`); the string
  manipulation the handlers perform (`split(sep, 1)`, `strip()`, `lower()`,
  `startswith`) is reimplemented on `List Char`.
* JSON floats (`hours_worked`, `amount`) are modelled as `ℚ`: the handlers only
  compare them against integer bounds, no float arithmetic is performed.
* `datetime.utcnow()` is an external clock, passed to `update_task` as a `Nat`
  timestamp; `datetime.fromisoformat(...).date()` is modelled by a `YYYY-MM-DD`
  parser where only success or failure of parsing matters.
* SHA-256 (`hashlib.sha256(...).hexdigest()`) is modelled as an ideal hash: a
  deterministic, collision-free function producing only lowercase hex digits.
  The embedding encodes each character's code point as eight hex digits; the
  handlers rely exactly on determinism, injectivity (collision resistance) and
  on the digest containing no `:` and no whitespace.
* MongoDB collections are Lean lists; Mongo ids (`ObjectId`/`_id`) are `Nat`
  keys and the string form of ids over the wire is elided (no claim concerns
  the malformed-id path).
* `HTTPException(status, detail)` becomes `Except.error ⟨status, detail⟩`.
  An exception that is *not* an `HTTPException` (a pydantic `ValidationError`
  or `ValueError` raised inside a handler body) is not caught by FastAPI's
  handlers and surfaces as an HTTP 500 response; it is modelled as
  `Except.error ⟨500, "Internal Server Error"⟩`.
-/

/-- HTTP error as raised through `HTTPException(status_code=..., detail=...)`. -/
structure HTTPError where
  status : Nat
  detail : String
  deriving DecidableEq

/-- The two roles of `Literal["employee", "core"]`. -/
inductive Role where
  | employee
  | core
  deriving DecidableEq

/-- Task status `Literal["pending", "in_progress", "done"]`. -/
inductive TaskStatus where
  | pending
  | in_progress
  | done
  deriving DecidableEq

/-- Salary status `Literal["pending", "paid"]`. -/
inductive SalaryStatus where
  | pending
  | paid
  deriving DecidableEq

/-- Finance record kind `Literal["revenue", "expense"]`. -/
inductive FinanceKind where
  | revenue
  | expense
  deriving DecidableEq

/-- The `AuthUser` response model of `main.py`. -/
structure AuthUser where
  email : String
  role : Role
  name : String
  deriving DecidableEq

/-- The `User` schema of `schemas.py` as stored in the `user` collection. -/
structure StoredUser where
  name : String
  email : String
  role : Role
  password_hash : String
  is_active : Bool
  deriving DecidableEq

/-- The `Task` schema as stored in the `task` collection.  `due_date` is kept
as the ISO string the handler stores; `updated_at` is absent until the first
successful non-empty `PATCH` sets it. -/
structure TaskDoc where
  title : String
  description : Option String
  assignee_email : String
  status : TaskStatus
  due_date : Option String
  updated_at : Option Nat
  deriving DecidableEq

/-- The `Report` schema as stored in the `report` collection; the date is the
(year, month, day) triple produced by `datetime.fromisoformat(...).date()`. -/
structure ReportDoc where
  employee_email : String
  report_date : Nat × Nat × Nat
  summary : String
  hours_worked : ℚ
  deriving DecidableEq

/-- The `SalaryPayment` schema as stored in the `salarypayment` collection. -/
structure SalaryDoc where
  employee_email : String
  amount : ℚ
  month : String
  notes : Option String
  status : SalaryStatus
  deriving DecidableEq

/-- The `FinanceRecord` schema as stored in the `financerecord` collection. -/
structure FinanceDoc where
  kind : FinanceKind
  amount : ℚ
  category : String
  description : Option String
  reference : Option String
  deriving DecidableEq

/-! ### Python string primitives, reimplemented on `List Char` -/

/-- Whitespace as removed by Python's `str.strip()` (restricted to the ASCII
whitespace characters that can actually occur in the modelled data). -/
def isWSChar (c : Char) : Bool :=
  c = ' ' || c = '\t' || c = '\n' || c = '\r'

/-- Python `str.strip()`: drop whitespace from both ends. -/
def trimL (l : List Char) : List Char :=
  ((l.dropWhile isWSChar).reverse.dropWhile isWSChar).reverse

/-- ASCII lowercasing of one character, as `str.lower()` acts on the
characters relevant here. -/
def lowerChar (c : Char) : Char :=
  if 'A' ≤ c ∧ c ≤ 'Z' then Char.ofNat (c.toNat + 32) else c

/-- Python `str.lower()`. -/
def lowerL (l : List Char) : List Char :=
  l.map lowerChar

/-- Python `s.split(sep, 1)` when `sep` occurs: the parts before and after the
first occurrence; `none` when `sep` does not occur. -/
def splitFirstOn (sep : Char) : List Char → Option (List Char × List Char)
  | [] => none
  | c :: rest =>
    if c = sep then some ([], rest)
    else
      match splitFirstOn sep rest with
      | none => none
      | some (a, b) => some (c :: a, b)

/-! ### The ideal-hash model of `hashlib.sha256(...).hexdigest()` -/

/-- Eight-hex-digit big-endian encoding of a `Nat` below `2 ^ 32`. -/
def toHex8 (n : Nat) : List Char :=
  [Nat.digitChar (n / 268435456 % 16), Nat.digitChar (n / 16777216 % 16),
   Nat.digitChar (n / 1048576 % 16), Nat.digitChar (n / 65536 % 16),
   Nat.digitChar (n / 4096 % 16), Nat.digitChar (n / 256 % 16),
   Nat.digitChar (n / 16 % 16), Nat.digitChar (n % 16)]

/-- Value of one lowercase hex digit (left inverse of `Nat.digitChar` below 16). -/
def hexCharVal (c : Char) : Nat :=
  if 97 ≤ c.toNat then c.toNat - 87 else c.toNat - 48

/-- Decode a big-endian hex digit list. -/
def ofHex8 (l : List Char) : Nat :=
  l.foldl (fun acc c => acc * 16 + hexCharVal c) 0

/-- Hex block of one character of the hashed input. -/
def encChar (c : Char) : List Char :=
  toHex8 c.toNat

/-- Ideal-hash model of `sha256(s.encode()).hexdigest()` on character lists:
deterministic, injective (ideal collision resistance), output only lowercase
hex digits. -/
def sha256hexL (l : List Char) : List Char :=
  l.flatMap encChar

/-! ### Auth utilities of `main.py` -/

/-- `os.getenv("APP_SECRET", "change-me-secret")`: the environment is external,
the embedding fixes the default. -/
def SECRET : String :=
  "change-me-secret"

/-- `hash_password`: hex digest of the password. -/
def hash_password (password : String) : String :=
  ⟨sha256hexL password.data⟩

/-- The f-string `f"{email}:{password_hash}:{SECRET}"` of `make_token`. -/
def rawToken (email password_hash : List Char) : List Char :=
  email ++ ':' :: (password_hash ++ ':' :: SECRET.data)

/-- `make_token`: `sha256(raw).hexdigest() + ":" + email`. -/
def make_token (email password_hash : String) : String :=
  ⟨sha256hexL (rawToken email.data password_hash.data) ++ ':' :: email.data⟩

/-- `parse_token`: `None` when the token is empty or has no `:`; otherwise the
part after the first `:` (the email position). -/
def parse_token (token : String) : Option String :=
  match splitFirstOn ':' token.data with
  | none => none
  | some (_, email) => some ⟨email⟩

/-- Python `s.split(":", 1)[0]`: the whole string when `:` does not occur. -/
def firstPart (s : String) : List Char :=
  match splitFirstOn ':' s.data with
  | none => s.data
  | some (a, _) => a

/-- The Mongo query `find_one({"email": email, "is_active": True})` on the
`user` collection: first stored user with that email that is active. -/
def findActive (store : List StoredUser) (email : String) : Option StoredUser :=
  store.find? (fun u => u.email == email && u.is_active)

/-- Properties of a string accepted by pydantic's `EmailStr` that the token
round trip relies on, modelled from the external validator: an email is
nonempty and contains neither whitespace nor `:`. -/
def validEmail (s : String) : Bool :=
  !s.data.isEmpty && s.data.all (fun c => !isWSChar c && c ≠ ':')

/-- `get_current_user`: header check, token parse, user lookup, digest check.
The `500` branch is unreachable (the prefix check guarantees a space; Python
would raise `IndexError` there, surfacing as a 500). -/
def get_current_user (authorization : Option String) (store : List StoredUser) :
    Except HTTPError AuthUser :=
  match authorization with
  | none => .error ⟨401, "Missing or invalid Authorization header"⟩
  | some auth =>
    if "bearer ".data.isPrefixOf (lowerL auth.data) then
      match splitFirstOn ' ' auth.data with
      | none => .error ⟨500, "Internal Server Error"⟩
      | some (_, rest) =>
        let token : String := ⟨trimL rest⟩
        match parse_token token with
        | none => .error ⟨401, "Invalid token"⟩
        | some email =>
          if email.data.isEmpty then .error ⟨401, "Invalid token"⟩
          else
            match findActive store email with
            | none => .error ⟨401, "User not found or inactive"⟩
            | some user =>
              if firstPart token ≠ firstPart (make_token user.email user.password_hash) then
                .error ⟨401, "Invalid token signature"⟩
              else .ok ⟨user.email, user.role, user.name⟩
    else .error ⟨401, "Missing or invalid Authorization header"⟩

/-! ### `/auth/register` and `/auth/login` -/

/-- The `RegisterRequest` body. -/
structure RegisterRequest where
  name : String
  email : String
  password : String
  role : Role
  deriving DecidableEq

/-- The `LoginRequest` body. -/
structure LoginRequest where
  email : String
  password : String
  deriving DecidableEq

/-- The `TokenResponse` model. -/
structure TokenResponse where
  token : String
  user : AuthUser
  deriving DecidableEq

/-- Tail of `register_user` after the authentication gate: duplicate-email
check, then `create_document("user", ...)` (modelled from the spec: the store
appends the document) and the `AuthUser` response. -/
def registerInsert (payload : RegisterRequest) (store : List StoredUser) :
    Except HTTPError AuthUser × List StoredUser :=
  if (store.find? (fun u => u.email == payload.email)).isSome then
    (.error ⟨400, "Email already registered"⟩, store)
  else
    (.ok ⟨payload.email, payload.role, payload.name⟩,
      store ++ [⟨payload.name, payload.email, payload.role, hash_password payload.password, true⟩])

/-- Body of `register_user(payload, current)`:
`count_documents({}) > 0` gates on `current`, then the insert runs. -/
def register_user (payload : RegisterRequest) (current : Option AuthUser)
    (store : List StoredUser) : Except HTTPError AuthUser × List StoredUser :=
  if store.length > 0 then
    match current with
    | none => (.error ⟨401, "Authentication required"⟩, store)
    | some c =>
      if c.role ≠ Role.core then (.error ⟨403, "Only core can create users"⟩, store)
      else registerInsert payload store
  else registerInsert payload store

/-- The `POST /auth/register` endpoint as FastAPI wires it.  The dependency is
`Depends(lambda: None)`, a constant function: `current` is always `None` and
the request's `Authorization` header is never consulted. -/
def register_endpoint (_authorization : Option String) (payload : RegisterRequest)
    (store : List StoredUser) : Except HTTPError AuthUser × List StoredUser :=
  register_user payload none store

/-- `POST /auth/login`. -/
def login (payload : LoginRequest) (store : List StoredUser) :
    Except HTTPError TokenResponse :=
  match findActive store payload.email with
  | none => .error ⟨401, "Invalid credentials"⟩
  | some user =>
    if user.password_hash ≠ hash_password payload.password then
      .error ⟨401, "Invalid credentials"⟩
    else
      .ok ⟨make_token user.email user.password_hash, ⟨user.email, user.role, user.name⟩⟩

/-! ### `/tasks` -/

/-- The `task` collection: documents keyed by their Mongo id. -/
abbrev TaskStore := List (Nat × TaskDoc)

/-- The `UpdateTaskRequest` body; an absent field is `none`
(`model_dump(exclude_none=True)` then drops it). -/
structure UpdateTaskRequest where
  status : Option TaskStatus
  title : Option String
  description : Option String
  deriving DecidableEq

/-- Modelled from the spec: `get_documents("task", q)` of the missing
`database` module returns the collection's documents matching a Mongo-style
equality filter; specialised to the only filter the handlers build (equality
on `assignee_email`, or the empty filter). -/
def get_task_documents (q : Option String) (store : TaskStore) : List TaskDoc :=
  (store.filter (fun p =>
    match q with
    | none => true
    | some e => p.2.assignee_email == e)).map (·.2)

/-- `GET /tasks`: employees are forced to their own email as filter; core may
filter by the `assignee` query parameter. -/
def list_tasks (current : AuthUser) (assignee : Option String) (store : TaskStore) :
    List TaskDoc :=
  get_task_documents
    (if current.role = Role.employee then some current.email
     else
       match assignee with
       | some a => some a
       | none => none)
    store

/-- `find_one({"_id": _id})` on the `task` collection: the first document with
that id. -/
def taskFind (store : TaskStore) (task_id : Nat) : Option TaskDoc :=
  match store with
  | [] => none
  | p :: rest => if p.1 == task_id then some p.2 else taskFind rest task_id

/-- `update_one({"_id": _id}, {"$set": updates})`: replace the document with
that id by its updated version. -/
def taskReplace (store : TaskStore) (task_id : Nat) (doc : TaskDoc) : TaskStore :=
  store.map (fun p => if p.1 == task_id then (p.1, doc) else p)

/-- The `$set` document of `update_task`: exactly the fields present in the
request body, plus the server-set `updated_at`. -/
def applyUpdates (doc : TaskDoc) (payload : UpdateTaskRequest) (now : Nat) : TaskDoc :=
  { doc with
    status := match payload.status with | some s => s | none => doc.status
    title := match payload.title with | some t => t | none => doc.title
    description := match payload.description with | some d => some d | none => doc.description
    updated_at := some now }

/-- `PATCH /tasks/{task_id}` (ids already in their server-internal `Nat` form;
the malformed-id 400 path concerns only the wire format of ids).  An empty
`$set` returns the fetched document without writing; otherwise the document is
updated, re-fetched and returned. -/
def update_task (now task_id : Nat) (payload : UpdateTaskRequest) (current : AuthUser)
    (store : TaskStore) : Except HTTPError TaskDoc × TaskStore :=
  match taskFind store task_id with
  | none => (.error ⟨404, "Task not found"⟩, store)
  | some doc =>
    if current.role = Role.employee ∧ doc.assignee_email ≠ current.email then
      (.error ⟨403, "Not allowed"⟩, store)
    else if payload.status = none ∧ payload.title = none ∧ payload.description = none then
      (.ok doc, store)
    else
      let newDoc := applyUpdates doc payload now
      (.ok newDoc, taskReplace store task_id newDoc)

/-! ### `/reports` -/

/-- The `CreateReportRequest` body. -/
structure CreateReportRequest where
  date : String
  summary : String
  hours_worked : ℚ
  deriving DecidableEq

/-- Split on every occurrence of a separator (Python `s.split(sep)`). -/
def splitAllOn (sep : Char) : List Char → List (List Char)
  | [] => [[]]
  | c :: rest =>
    match splitAllOn sep rest with
    | [] => if c = sep then [[], []] else [[c]]
    | h :: t => if c = sep then [] :: h :: t else (c :: h) :: t

/-- Decimal value of a nonempty all-digit character list. -/
def digitsToNat? (l : List Char) : Option Nat :=
  if l.isEmpty then none
  else if l.all (·.isDigit) then
    some (l.foldl (fun acc c => acc * 10 + (c.toNat - 48)) 0)
  else none

/-- Modelled from the spec/stdlib: Python `datetime.fromisoformat(...).date()`
restricted to the `YYYY-MM-DD` day form; only parse success or failure matters
to the claims (failure raises `ValueError`). -/
def parseISODate (s : String) : Option (Nat × Nat × Nat) :=
  match splitAllOn '-' s.data with
  | [y, m, d] =>
    match digitsToNat? y, digitsToNat? m, digitsToNat? d with
    | some yv, some mv, some dv =>
      if 1 ≤ mv ∧ mv ≤ 12 ∧ 1 ≤ dv ∧ dv ≤ 31 then some (yv, mv, dv) else none
    | _, _, _ => none
  | _ => none

/-- `POST /reports`.  The `hours_worked ∈ [0, 24]` constraint lives on the
internal `Report` pydantic model constructed inside the handler: a violation
(like a bad date string) raises outside any `HTTPException`, which FastAPI
surfaces as a 500 response, and nothing is persisted. -/
def create_report (payload : CreateReportRequest) (current : AuthUser)
    (store : List ReportDoc) : Except HTTPError ReportDoc × List ReportDoc :=
  if current.role ≠ Role.employee then
    (.error ⟨403, "Only employees can submit reports"⟩, store)
  else
    match parseISODate payload.date with
    | none => (.error ⟨500, "Internal Server Error"⟩, store)
    | some d =>
      if 0 ≤ payload.hours_worked ∧ payload.hours_worked ≤ 24 then
        let doc : ReportDoc := ⟨current.email, d, payload.summary, payload.hours_worked⟩
        (.ok doc, store ++ [doc])
      else (.error ⟨500, "Internal Server Error"⟩, store)

/-! ### `/salary` -/

/-- The wire-level body of `POST /salary`: `status` is optional with pydantic
default `"paid"`; an omitted field is `none`. -/
structure CreateSalaryWire where
  employee_email : String
  amount : ℚ
  month : String
  notes : Option String
  status : Option SalaryStatus
  deriving DecidableEq

/-- The parsed `CreateSalaryRequest` after pydantic fills defaults. -/
structure CreateSalaryRequest where
  employee_email : String
  amount : ℚ
  month : String
  notes : Option String
  status : SalaryStatus
  deriving DecidableEq

/-- Pydantic parsing of the body: the `status` default `"paid"` is applied. -/
def parseCreateSalary (w : CreateSalaryWire) : CreateSalaryRequest :=
  ⟨w.employee_email, w.amount, w.month, w.notes, w.status.getD SalaryStatus.paid⟩

/-- `POST /salary` handler body.  `SalaryPayment(**payload.model_dump())`
re-validates `amount ≥ 0` (the request model has no bound): a violation raises
a pydantic `ValidationError`, surfacing as a 500. -/
def create_salary (payload : CreateSalaryRequest) (current : AuthUser)
    (store : List SalaryDoc) : Except HTTPError SalaryDoc × List SalaryDoc :=
  if current.role ≠ Role.core then
    (.error ⟨403, "Only core can create salary records"⟩, store)
  else if 0 ≤ payload.amount then
    let doc : SalaryDoc :=
      ⟨payload.employee_email, payload.amount, payload.month, payload.notes, payload.status⟩
    (.ok doc, store ++ [doc])
  else (.error ⟨500, "Internal Server Error"⟩, store)

/-- `POST /salary` as wired: parse, then handle. -/
def create_salary_endpoint (w : CreateSalaryWire) (current : AuthUser)
    (store : List SalaryDoc) : Except HTTPError SalaryDoc × List SalaryDoc :=
  create_salary (parseCreateSalary w) current store

/-! ### `/finance` -/

/-- The `CreateFinanceRequest` body. -/
structure CreateFinanceRequest where
  kind : FinanceKind
  amount : ℚ
  category : String
  description : Option String
  reference : Option String
  deriving DecidableEq

/-- `POST /finance`.  `FinanceRecord(**payload.model_dump())` re-validates
`amount ≥ 0`; a violation surfaces as a 500, after the role gate. -/
def create_finance (payload : CreateFinanceRequest) (current : AuthUser)
    (store : List FinanceDoc) : Except HTTPError FinanceDoc × List FinanceDoc :=
  if current.role ≠ Role.core then
    (.error ⟨403, "Only core can add finance records"⟩, store)
  else if 0 ≤ payload.amount then
    let doc : FinanceDoc :=
      ⟨payload.kind, payload.amount, payload.category, payload.description, payload.reference⟩
    (.ok doc, store ++ [doc])
  else (.error ⟨500, "Internal Server Error"⟩, store)

/-- `GET /finance`: core only, returns the whole collection. -/
def list_finance (current : AuthUser) (store : List FinanceDoc) :
    Except HTTPError (List FinanceDoc) :=
  if current.role ≠ Role.core then
    .error ⟨403, "Only core can view finance records"⟩
  else .ok store

/-- Status of an `Except` response: the HTTP error status, or `none` on a 200. -/
def errStatus {α : Type} : Except HTTPError α → Option Nat
  | .error e => some e.status
  | .ok _ => none

/-- Whether a response succeeded. -/
def resultOk {α : Type} : Except HTTPError α → Bool
  | .ok _ => true
  | .error _ => false

/-! ## Helper lemmas: the hex digest -/

/-- Decoding a hex digit below 16 recovers its value. -/
theorem hexCharVal_digitChar : ∀ k < 16, hexCharVal (Nat.digitChar k) = k := by decide

/-- Hex digits below 16 are not `:` and not whitespace. -/
theorem digitChar_not_colon_ws : ∀ k < 16, Nat.digitChar k ≠ ':' ∧ isWSChar (Nat.digitChar k) = false := by decide

/-- Decoding inverts the eight-digit hex encoding below `2 ^ 32`. -/
theorem ofHex8_toHex8 (n : Nat) (h : n < 4294967296) : ofHex8 (toHex8 n) = n := by
  have e1 := hexCharVal_digitChar (n / 268435456 % 16) (Nat.mod_lt _ (by norm_num))
  have e2 := hexCharVal_digitChar (n / 16777216 % 16) (Nat.mod_lt _ (by norm_num))
  have e3 := hexCharVal_digitChar (n / 1048576 % 16) (Nat.mod_lt _ (by norm_num))
  have e4 := hexCharVal_digitChar (n / 65536 % 16) (Nat.mod_lt _ (by norm_num))
  have e5 := hexCharVal_digitChar (n / 4096 % 16) (Nat.mod_lt _ (by norm_num))
  have e6 := hexCharVal_digitChar (n / 256 % 16) (Nat.mod_lt _ (by norm_num))
  have e7 := hexCharVal_digitChar (n / 16 % 16) (Nat.mod_lt _ (by norm_num))
  have e8 := hexCharVal_digitChar (n % 16) (Nat.mod_lt _ (by norm_num))
  simp only [ofHex8, toHex8, List.foldl, e1, e2, e3, e4, e5, e6, e7, e8]
  omega

/-- Character code points are below `2 ^ 32`. -/
theorem char_toNat_lt (c : Char) : c.toNat < 4294967296 :=
  c.val.val.isLt

/-- The per-character hex block is injective. -/
theorem encChar_inj {a b : Char} (h : encChar a = encChar b) : a = b := by
  have ha := ofHex8_toHex8 a.toNat (char_toNat_lt a)
  have hb := ofHex8_toHex8 b.toNat (char_toNat_lt b)
  have hn : a.toNat = b.toNat := by
    rw [← ha, ← hb]
    unfold encChar at h
    rw [h]
  have := congrArg Char.ofNat hn
  rwa [Char.ofNat_toNat, Char.ofNat_toNat] at this

/-- The ideal hash is injective (collision-free). -/
theorem sha256hexL_inj : ∀ (l1 l2 : List Char), sha256hexL l1 = sha256hexL l2 → l1 = l2 := by
  intro l1
  induction l1 with
  | nil =>
    intro l2 h
    cases l2 with
    | nil => rfl
    | cons b t => exact absurd h.symm (by simp [sha256hexL, encChar, toHex8])
  | cons a t ih =>
    intro l2 h
    cases l2 with
    | nil => exact absurd h (by simp [sha256hexL, encChar, toHex8])
    | cons b t2 =>
      simp only [sha256hexL, List.flatMap_cons] at h
      have hlen : (encChar a).length = (encChar b).length := rfl
      obtain ⟨h1, h2⟩ := List.append_inj h hlen
      have hab : a = b := encChar_inj h1
      subst hab
      have := ih t2 h2
      rw [this]

/-- Every character of a digest is a hex digit, hence neither `:` nor whitespace. -/
theorem sha256hexL_chars {l : List Char} {c : Char} (hc : c ∈ sha256hexL l) :
    c ≠ ':' ∧ isWSChar c = false := by
  simp only [sha256hexL, List.mem_flatMap] at hc
  obtain ⟨a, _, hmem⟩ := hc
  have hlt : ∀ m : Nat, m % 16 < 16 := fun m => Nat.mod_lt _ (by norm_num)
  simp only [encChar, toHex8, List.mem_cons, List.not_mem_nil, or_false] at hmem
  rcases hmem with h | h | h | h | h | h | h | h <;>
    exact h ▸ digitChar_not_colon_ws _ (hlt _)

/-! ## Helper lemmas: list and string primitives -/

/-- Splitting a list whose first separator occurrence is explicit. -/
theorem splitFirstOn_append (sep : Char) (l1 l2 : List Char) (h : ∀ c ∈ l1, c ≠ sep) :
    splitFirstOn sep (l1 ++ sep :: l2) = some (l1, l2) := by
  induction l1 with
  | nil => simp [splitFirstOn]
  | cons c t ih =>
    have hc : c ≠ sep := h c (List.mem_cons_self c t)
    have ih' := ih (fun x hx => h x (List.mem_cons_of_mem c hx))
    simp [splitFirstOn, hc, ih']

/-- A list is a `isPrefixOf`-prefix of itself followed by anything. -/
theorem isPrefixOf_append_self (l1 l2 : List Char) : l1.isPrefixOf (l1 ++ l2) = true := by
  induction l1 with
  | nil => simp [List.isPrefixOf]
  | cons c t ih => simp [List.isPrefixOf, ih]

/-- `dropWhile` is the identity when no element satisfies the predicate. -/
theorem dropWhile_eq_of_none (p : Char → Bool) (l : List Char) (h : ∀ c ∈ l, p c = false) :
    l.dropWhile p = l := by
  cases l with
  | nil => rfl
  | cons c t => simp [List.dropWhile, h c (List.mem_cons_self c t)]

/-- `strip()` is the identity on whitespace-free strings. -/
theorem trimL_eq_of_no_ws (l : List Char) (h : ∀ c ∈ l, isWSChar c = false) :
    trimL l = l := by
  unfold trimL
  rw [dropWhile_eq_of_none _ _ h]
  rw [dropWhile_eq_of_none _ _ (fun c hc => h c (List.mem_reverse.mp hc))]
  exact List.reverse_reverse l

/-! ## Helper lemmas: the token pipeline -/

/-- The digest part of a token: `make_token(...).split(":", 1)[0]`
is exactly the hex digest. -/
theorem firstPart_make_token (e h : String) :
    firstPart (make_token e h) = sha256hexL (rawToken e.data h.data) := by
  unfold firstPart make_token
  rw [splitFirstOn_append ':' _ _ (fun c hc => (sha256hexL_chars hc).1)]

/-- Full evaluation of `get_current_user` on a well-formed bearer header built
from `make_token e h`: the request reaches the user lookup and then the digest
comparison against the stored password hash. -/
theorem get_current_user_token_eval (store : List StoredUser) (e h : String)
    (hem : validEmail e = true) :
    get_current_user (some ("Bearer " ++ make_token e h)) store =
      match findActive store e with
      | none => Except.error ⟨401, "User not found or inactive"⟩
      | some user =>
        if sha256hexL (rawToken e.data h.data)
            ≠ sha256hexL (rawToken user.email.data user.password_hash.data) then
          Except.error ⟨401, "Invalid token signature"⟩
        else Except.ok ⟨user.email, user.role, user.name⟩ := by
  have hallc : ∀ c ∈ e.data, isWSChar c = false ∧ c ≠ ':' := by
    intro c hc
    rw [validEmail, Bool.and_eq_true, List.all_eq_true] at hem
    have h2 := hem.2 c hc
    simp only [Bool.and_eq_true, Bool.not_eq_true', decide_eq_true_eq] at h2
    exact h2
  have hempty : e.data.isEmpty = false := by
    rw [validEmail, Bool.and_eq_true] at hem
    have h1 := hem.1
    simp only [Bool.not_eq_true'] at h1
    exact h1
  have hhexcolon : ∀ c ∈ sha256hexL (rawToken e.data h.data), c ≠ ':' :=
    fun c hc => (sha256hexL_chars hc).1
  have htokws : ∀ c ∈ sha256hexL (rawToken e.data h.data) ++ ':' :: e.data,
      isWSChar c = false := by
    intro c hc
    rcases List.mem_append.mp hc with hc | hc
    · exact (sha256hexL_chars hc).2
    · rcases List.mem_cons.mp hc with rfl | hc
      · rfl
      · exact (hallc c hc).1
  have eq0 : ("Bearer " ++ make_token e h).data =
      "Bearer ".data ++ (sha256hexL (rawToken e.data h.data) ++ ':' :: e.data) := rfl
  have eq1 : ("Bearer " ++ make_token e h).data =
      "Bearer".data ++ ' ' :: (sha256hexL (rawToken e.data h.data) ++ ':' :: e.data) := rfl
  have hlow : lowerL (("Bearer " ++ make_token e h).data) =
      "bearer ".data ++ lowerL (sha256hexL (rawToken e.data h.data) ++ ':' :: e.data) := by
    rw [eq0]
    unfold lowerL
    rw [List.map_append]
    congr 1
  have hprefOK : "bearer ".data.isPrefixOf (lowerL (("Bearer " ++ make_token e h).data)) = true := by
    rw [hlow]
    exact isPrefixOf_append_self _ _
  have hsplit : splitFirstOn ' ' (("Bearer " ++ make_token e h).data) =
      some ("Bearer".data, sha256hexL (rawToken e.data h.data) ++ ':' :: e.data) := by
    rw [eq1]
    exact splitFirstOn_append ' ' _ _ (by decide)
  have htrim : trimL (sha256hexL (rawToken e.data h.data) ++ ':' :: e.data) =
      sha256hexL (rawToken e.data h.data) ++ ':' :: e.data :=
    trimL_eq_of_no_ws _ htokws
  have hsplit2 : splitFirstOn ':' (sha256hexL (rawToken e.data h.data) ++ ':' :: e.data) =
      some (sha256hexL (rawToken e.data h.data), e.data) :=
    splitFirstOn_append ':' _ _ hhexcolon
  have hfp1 : firstPart ⟨sha256hexL (rawToken e.data h.data) ++ ':' :: e.data⟩ =
      sha256hexL (rawToken e.data h.data) := by
    unfold firstPart
    rw [hsplit2]
  have heta : (⟨e.data⟩ : String) = e := rfl
  simp only [get_current_user, hprefOK, hsplit, if_true, htrim, parse_token, hsplit2,
    heta, hempty, Bool.false_eq_true, if_false, hfp1, firstPart_make_token]

/-! ## C6: login and token verification round trip -/

/-- C6: for every registered active user and its valid (email, password) pair,
`POST /auth/login` succeeds and returns a token that `get_current_user`
accepts, and the identity it yields is exactly that user's email. -/
theorem login_token_roundtrip (store : List StoredUser) (u : StoredUser) (pw : String)
    (hfind : findActive store u.email = some u)
    (hpw : u.password_hash = hash_password pw)
    (hem : validEmail u.email = true) :
    login ⟨u.email, pw⟩ store =
      Except.ok ⟨make_token u.email u.password_hash, ⟨u.email, u.role, u.name⟩⟩ ∧
    get_current_user (some ("Bearer " ++ make_token u.email u.password_hash)) store =
      Except.ok ⟨u.email, u.role, u.name⟩ := by
  constructor
  · simp only [login, hfind]
    rw [if_neg]
    intro hcontra
    exact hcontra hpw
  · rw [get_current_user_token_eval store u.email u.password_hash hem, hfind]
    simp

/-- Witness for C6 at a concrete one-user store. -/
theorem login_token_roundtrip_witness :
    (findActive [⟨"Alice", "alice@corp.io", Role.core, hash_password "pw123", true⟩]
        "alice@corp.io" =
      some ⟨"Alice", "alice@corp.io", Role.core, hash_password "pw123", true⟩) ∧
    validEmail "alice@corp.io" = true ∧
    (login ⟨"alice@corp.io", "pw123"⟩
        [⟨"Alice", "alice@corp.io", Role.core, hash_password "pw123", true⟩] =
      Except.ok ⟨make_token "alice@corp.io" (hash_password "pw123"),
        ⟨"alice@corp.io", Role.core, "Alice"⟩⟩ ∧
    get_current_user (some ("Bearer " ++ make_token "alice@corp.io" (hash_password "pw123")))
        [⟨"Alice", "alice@corp.io", Role.core, hash_password "pw123", true⟩] =
      Except.ok ⟨"alice@corp.io", Role.core, "Alice"⟩) :=
  ⟨rfl, by decide,
    login_token_roundtrip
      [⟨"Alice", "alice@corp.io", Role.core, hash_password "pw123", true⟩]
      ⟨"Alice", "alice@corp.io", Role.core, hash_password "pw123", true⟩
      "pw123" rfl rfl (by decide)⟩

/-! ## C7: a password change invalidates previously issued tokens -/

/-- C7: a token issued while the stored password hash was `oldHash` is rejected
with 401 once the stored hash differs from `oldHash`. -/
theorem password_change_rejects_old_token (store : List StoredUser) (u : StoredUser)
    (oldHash : String)
    (hfind : findActive store u.email = some u)
    (hne : u.password_hash ≠ oldHash)
    (hem : validEmail u.email = true) :
    get_current_user (some ("Bearer " ++ make_token u.email oldHash)) store =
      Except.error ⟨401, "Invalid token signature"⟩ := by
  rw [get_current_user_token_eval store u.email oldHash hem, hfind]
  have hcond : sha256hexL (rawToken u.email.data oldHash.data) ≠
      sha256hexL (rawToken u.email.data u.password_hash.data) := by
    intro hEq
    have hraw := sha256hexL_inj _ _ hEq
    unfold rawToken at hraw
    have h1 := List.append_cancel_left hraw
    injection h1 with _ h2
    have h3 := List.append_cancel_right h2
    exact hne (String.ext h3.symm)
  exact if_pos hcond

/-- Witness for C7: the stored hash is of "newpw", the token was issued for
the hash of "oldpw". -/
theorem password_change_rejects_old_token_witness :
    (findActive [⟨"Bob", "bob@corp.io", Role.employee, hash_password "newpw", true⟩]
        "bob@corp.io" =
      some ⟨"Bob", "bob@corp.io", Role.employee, hash_password "newpw", true⟩) ∧
    hash_password "newpw" ≠ hash_password "oldpw" ∧
    get_current_user (some ("Bearer " ++ make_token "bob@corp.io" (hash_password "oldpw")))
        [⟨"Bob", "bob@corp.io", Role.employee, hash_password "newpw", true⟩] =
      Except.error ⟨401, "Invalid token signature"⟩ :=
  ⟨rfl, by decide,
    password_change_rejects_old_token
      [⟨"Bob", "bob@corp.io", Role.employee, hash_password "newpw", true⟩]
      ⟨"Bob", "bob@corp.io", Role.employee, hash_password "newpw", true⟩
      (hash_password "oldpw") rfl (by decide) (by decide)⟩

/-! ## C1: registration when users already exist -/

/-- C1 (the code as written): once the user collection is non-empty,
`POST /auth/register` answers 401 for *every* request, whatever the
Authorization header carries — the route's dependency is `lambda: None`, so
the valid core token of the claim is never even read, and the
"only core can create users" 403 branch is unreachable. -/
theorem register_always_401_when_nonempty (authorization : Option String)
    (payload : RegisterRequest) (store : List StoredUser) (hne : store ≠ []) :
    register_endpoint authorization payload store =
      (Except.error ⟨401, "Authentication required"⟩, store) := by
  unfold register_endpoint register_user
  rw [if_pos (List.length_pos.mpr hne)]

/-- Witness for C1's failing input: a one-core-user store and a request
authenticated with that user's own valid token still gets 401. -/
theorem register_always_401_when_nonempty_witness :
    ([(⟨"Alice", "alice@corp.io", Role.core, hash_password "pw123", true⟩ : StoredUser)] ≠ []) ∧
    register_endpoint
        (some ("Bearer " ++ make_token "alice@corp.io" (hash_password "pw123")))
        ⟨"Bob", "bob@corp.io", "hunter2", Role.employee⟩
        [⟨"Alice", "alice@corp.io", Role.core, hash_password "pw123", true⟩] =
      (Except.error ⟨401, "Authentication required"⟩,
        [⟨"Alice", "alice@corp.io", Role.core, hash_password "pw123", true⟩]) :=
  ⟨by simp, register_always_401_when_nonempty _ _ _ (by simp)⟩

/-! ## C2: bootstrap registration -/

/-- C2: an unauthenticated `POST /auth/register` succeeds iff the user
collection is empty, and then the created user carries exactly the
caller-supplied role (including core). -/
theorem register_bootstrap_iff_empty (payload : RegisterRequest) (store : List StoredUser) :
    (resultOk (register_endpoint none payload store).1 = true ↔ store = []) ∧
    (store = [] →
      register_endpoint none payload store =
        (Except.ok ⟨payload.email, payload.role, payload.name⟩,
          [⟨payload.name, payload.email, payload.role, hash_password payload.password, true⟩])) := by
  cases store with
  | nil =>
    constructor
    · simp [register_endpoint, register_user, registerInsert, resultOk]
    · intro _
      simp [register_endpoint, register_user, registerInsert]
  | cons u t =>
    constructor
    · simp [register_endpoint, register_user, resultOk]
    · intro hcontra
      exact absurd hcontra (List.cons_ne_nil u t)

/-- Witness for C2 at the empty store and a core-role payload. -/
theorem register_bootstrap_iff_empty_witness :
    (resultOk (register_endpoint none ⟨"Ada", "ada@corp.io", "s3cret", Role.core⟩ []).1 = true ↔
      ([] : List StoredUser) = []) ∧
    (([] : List StoredUser) = [] →
      register_endpoint none ⟨"Ada", "ada@corp.io", "s3cret", Role.core⟩ [] =
        (Except.ok ⟨"ada@corp.io", Role.core, "Ada"⟩,
          [⟨"Ada", "ada@corp.io", Role.core, hash_password "s3cret", true⟩])) :=
  register_bootstrap_iff_empty ⟨"Ada", "ada@corp.io", "s3cret", Role.core⟩ []

/-! ## C3: out-of-range hours_worked on POST /reports -/

/-- C3 counterexample: an employee posting `hours_worked = 25` gets a 500
response (the unhandled pydantic `ValidationError`), not the claimed 400,
and no record is created. -/
theorem report_hours_counterexample :
    errStatus (create_report ⟨"2024-01-02", "overtime", 25⟩
        ⟨"bob@corp.io", Role.employee, "Bob"⟩ []).1 = some 500 ∧
    errStatus (create_report ⟨"2024-01-02", "overtime", 25⟩
        ⟨"bob@corp.io", Role.employee, "Bob"⟩ []).1 ≠ some 400 ∧
    (create_report ⟨"2024-01-02", "overtime", 25⟩
        ⟨"bob@corp.io", Role.employee, "Bob"⟩ []).2 = [] := by
  refine ⟨?_, ?_, ?_⟩ <;> decide

/-- C3 amended: for every authenticated employee, a parseable date and
`hours_worked` outside `[0, 24]`, `POST /reports` rejects the request — as a
500 from the unhandled validation exception, not a 400 — and creates no
record. -/
theorem report_hours_out_of_range_500 (payload : CreateReportRequest) (current : AuthUser)
    (store : List ReportDoc)
    (hrole : current.role = Role.employee)
    (hdate : (parseISODate payload.date).isSome = true)
    (hh : payload.hours_worked < 0 ∨ 24 < payload.hours_worked) :
    create_report payload current store =
      (Except.error ⟨500, "Internal Server Error"⟩, store) := by
  have h1 : ¬(current.role ≠ Role.employee) := fun hc => hc hrole
  obtain ⟨d, hd⟩ := Option.isSome_iff_exists.mp hdate
  have h2 : ¬(0 ≤ payload.hours_worked ∧ payload.hours_worked ≤ 24) := by
    rintro ⟨h0, h24⟩
    rcases hh with hh | hh
    · exact absurd h0 (not_le.mpr hh)
    · exact absurd h24 (not_le.mpr hh)
  simp only [create_report, hd]
  rw [if_neg h1, if_neg h2]

/-- Witness for the amended C3 at `hours_worked = 25`. -/
theorem report_hours_out_of_range_500_witness :
    ((⟨"bob@corp.io", Role.employee, "Bob"⟩ : AuthUser).role = Role.employee) ∧
    (parseISODate "2024-01-02").isSome = true ∧
    ((25 : ℚ) < 0 ∨ (24 : ℚ) < 25) ∧
    create_report ⟨"2024-01-02", "overtime", 25⟩ ⟨"bob@corp.io", Role.employee, "Bob"⟩ [] =
      (Except.error ⟨500, "Internal Server Error"⟩, []) :=
  ⟨rfl, by decide, Or.inr (by norm_num),
    report_hours_out_of_range_500 ⟨"2024-01-02", "overtime", 25⟩
      ⟨"bob@corp.io", Role.employee, "Bob"⟩ [] rfl (by decide) (Or.inr (by norm_num))⟩

/-! ## C4: finance endpoints are invisible to employees -/

/-- C4: every employee request to `POST /finance` or `GET /finance` gets 403,
no record data is returned and nothing is created. -/
theorem finance_invisible_to_employees (payload : CreateFinanceRequest) (current : AuthUser)
    (store : List FinanceDoc) (hrole : current.role = Role.employee) :
    create_finance payload current store =
      (Except.error ⟨403, "Only core can add finance records"⟩, store) ∧
    list_finance current store =
      Except.error ⟨403, "Only core can view finance records"⟩ := by
  have hne : current.role ≠ Role.core := by
    rw [hrole]
    decide
  constructor
  · unfold create_finance
    rw [if_pos hne]
  · unfold list_finance
    rw [if_pos hne]

/-- Witness for C4 at a concrete employee and store. -/
theorem finance_invisible_to_employees_witness :
    ((⟨"bob@corp.io", Role.employee, "Bob"⟩ : AuthUser).role = Role.employee) ∧
    (create_finance ⟨FinanceKind.revenue, 5, "Sales", none, none⟩
        ⟨"bob@corp.io", Role.employee, "Bob"⟩ [] =
      (Except.error ⟨403, "Only core can add finance records"⟩, []) ∧
    list_finance ⟨"bob@corp.io", Role.employee, "Bob"⟩ [] =
      Except.error ⟨403, "Only core can view finance records"⟩) :=
  ⟨rfl, finance_invisible_to_employees ⟨FinanceKind.revenue, 5, "Sales", none, none⟩
    ⟨"bob@corp.io", Role.employee, "Bob"⟩ [] rfl⟩

/-! ## C5: employees only ever see their own tasks -/

/-- C5: whatever the `assignee` query parameter and the store contents, every
task an employee's `GET /tasks` returns is assigned to that employee. -/
theorem employee_tasks_own_only (current : AuthUser) (assignee : Option String)
    (store : TaskStore) (t : TaskDoc)
    (hrole : current.role = Role.employee)
    (ht : t ∈ list_tasks current assignee store) :
    t.assignee_email = current.email := by
  unfold list_tasks at ht
  rw [if_pos hrole] at ht
  unfold get_task_documents at ht
  rcases List.mem_map.mp ht with ⟨p, hp, hpt⟩
  have hfil := (List.mem_filter.mp hp).2
  simp only [beq_iff_eq] at hfil
  rw [← hpt]
  exact hfil

/-- Witness for C5: a one-task store where the employee sees exactly their
own task. -/
theorem employee_tasks_own_only_witness :
    ((⟨"bob@corp.io", Role.employee, "Bob"⟩ : AuthUser).role = Role.employee) ∧
    (⟨"Ship it", none, "bob@corp.io", TaskStatus.pending, none, none⟩ : TaskDoc) ∈
      list_tasks ⟨"bob@corp.io", Role.employee, "Bob"⟩ (some "eve@corp.io")
        [(1, ⟨"Ship it", none, "bob@corp.io", TaskStatus.pending, none, none⟩)] ∧
    (⟨"Ship it", none, "bob@corp.io", TaskStatus.pending, none, none⟩ : TaskDoc).assignee_email =
      (⟨"bob@corp.io", Role.employee, "Bob"⟩ : AuthUser).email :=
  ⟨rfl, by decide,
    employee_tasks_own_only ⟨"bob@corp.io", Role.employee, "Bob"⟩ (some "eve@corp.io")
      [(1, ⟨"Ship it", none, "bob@corp.io", TaskStatus.pending, none, none⟩)]
      ⟨"Ship it", none, "bob@corp.io", TaskStatus.pending, none, none⟩ rfl (by decide)⟩

/-! ## C8 and C9: PATCH /tasks/{id} -/

/-- Looking up the replaced id finds the replacement (when it finds anything). -/
theorem taskFind_replace (store : TaskStore) (task_id : Nat) (d : TaskDoc) :
    taskFind (taskReplace store task_id d) task_id =
      (taskFind store task_id).map (fun _ => d) := by
  induction store with
  | nil => rfl
  | cons p t ih =>
    by_cases hp : p.1 = task_id
    · simp [taskFind, taskReplace, hp]
    · simp [taskFind, taskReplace, hp] at ih ⊢
      exact ih

/-- C8: a `PATCH /tasks/{id}` whose body sets no field returns the stored task
unchanged (in particular `updated_at` is untouched) and performs no write. -/
theorem update_task_empty_body_noop (now task_id : Nat) (current : AuthUser)
    (store : TaskStore) (doc : TaskDoc)
    (hfind : taskFind store task_id = some doc)
    (hauth : ¬(current.role = Role.employee ∧ doc.assignee_email ≠ current.email)) :
    update_task now task_id ⟨none, none, none⟩ current store = (Except.ok doc, store) := by
  simp only [update_task, hfind]
  rw [if_neg hauth, if_pos (by simp)]

/-- Witness for C8: a core caller and a one-task store. -/
theorem update_task_empty_body_noop_witness :
    (taskFind [(1, ⟨"Ship it", none, "bob@corp.io", TaskStatus.pending, none, none⟩)] 1 =
      some ⟨"Ship it", none, "bob@corp.io", TaskStatus.pending, none, none⟩) ∧
    ¬((⟨"alice@corp.io", Role.core, "Alice"⟩ : AuthUser).role = Role.employee ∧
      (⟨"Ship it", none, "bob@corp.io", TaskStatus.pending, none, none⟩ :
        TaskDoc).assignee_email ≠ (⟨"alice@corp.io", Role.core, "Alice"⟩ : AuthUser).email) ∧
    update_task 77 1 ⟨none, none, none⟩ ⟨"alice@corp.io", Role.core, "Alice"⟩
        [(1, ⟨"Ship it", none, "bob@corp.io", TaskStatus.pending, none, none⟩)] =
      (Except.ok ⟨"Ship it", none, "bob@corp.io", TaskStatus.pending, none, none⟩,
        [(1, ⟨"Ship it", none, "bob@corp.io", TaskStatus.pending, none, none⟩)]) :=
  ⟨rfl, by decide,
    update_task_empty_body_noop 77 1 ⟨"alice@corp.io", Role.core, "Alice"⟩
      [(1, ⟨"Ship it", none, "bob@corp.io", TaskStatus.pending, none, none⟩)]
      ⟨"Ship it", none, "bob@corp.io", TaskStatus.pending, none, none⟩ rfl (by decide)⟩

/-- C9: no `PATCH /tasks/{id}` request, by any caller with any body, ever
changes the stored task's `assignee_email` or `due_date`. -/
theorem update_task_preserves_assignee_due (now task_id : Nat) (payload : UpdateTaskRequest)
    (current : AuthUser) (store : TaskStore) (doc doc' : TaskDoc)
    (hfind : taskFind store task_id = some doc)
    (hfind' : taskFind (update_task now task_id payload current store).2 task_id = some doc') :
    doc'.assignee_email = doc.assignee_email ∧ doc'.due_date = doc.due_date := by
  by_cases h1 : current.role = Role.employee ∧ doc.assignee_email ≠ current.email
  · have hup : update_task now task_id payload current store =
        (Except.error ⟨403, "Not allowed"⟩, store) := by
      simp only [update_task, hfind]
      rw [if_pos h1]
    rw [hup] at hfind'
    have heq : some doc = some doc' := hfind.symm.trans hfind'
    injection heq with h
    subst h
    exact ⟨rfl, rfl⟩
  · by_cases h2 : payload.status = none ∧ payload.title = none ∧ payload.description = none
    · have hup : update_task now task_id payload current store = (Except.ok doc, store) := by
        simp only [update_task, hfind]
        rw [if_neg h1, if_pos h2]
      rw [hup] at hfind'
      have heq : some doc = some doc' := hfind.symm.trans hfind'
      injection heq with h
      subst h
      exact ⟨rfl, rfl⟩
    · have hup : update_task now task_id payload current store =
          (Except.ok (applyUpdates doc payload now),
            taskReplace store task_id (applyUpdates doc payload now)) := by
        simp only [update_task, hfind]
        rw [if_neg h1, if_neg h2]
      rw [hup] at hfind'
      have h3 : taskFind (taskReplace store task_id (applyUpdates doc payload now)) task_id =
          some (applyUpdates doc payload now) := by
        rw [taskFind_replace, hfind]
        rfl
      have heq : some (applyUpdates doc payload now) = some doc' := h3.symm.trans hfind'
      injection heq with h
      rw [← h]
      exact ⟨rfl, rfl⟩

/-- Witness for C9: a core caller changes status and title; the stored task
keeps its assignee and due date. -/
theorem update_task_preserves_assignee_due_witness :
    (taskFind [(1, ⟨"Ship it", none, "bob@corp.io", TaskStatus.pending, some "2025-01-31", none⟩)] 1 =
      some ⟨"Ship it", none, "bob@corp.io", TaskStatus.pending, some "2025-01-31", none⟩) ∧
    (taskFind (update_task 77 1 ⟨some TaskStatus.done, some "Shipped", none⟩
        ⟨"alice@corp.io", Role.core, "Alice"⟩
        [(1, ⟨"Ship it", none, "bob@corp.io", TaskStatus.pending, some "2025-01-31", none⟩)]).2 1 =
      some ⟨"Shipped", none, "bob@corp.io", TaskStatus.done, some "2025-01-31", some 77⟩) ∧
    ((⟨"Shipped", none, "bob@corp.io", TaskStatus.done, some "2025-01-31", some 77⟩ :
        TaskDoc).assignee_email =
      (⟨"Ship it", none, "bob@corp.io", TaskStatus.pending, some "2025-01-31", none⟩ :
        TaskDoc).assignee_email ∧
    (⟨"Shipped", none, "bob@corp.io", TaskStatus.done, some "2025-01-31", some 77⟩ :
        TaskDoc).due_date =
      (⟨"Ship it", none, "bob@corp.io", TaskStatus.pending, some "2025-01-31", none⟩ :
        TaskDoc).due_date) :=
  ⟨rfl, by decide,
    update_task_preserves_assignee_due 77 1 ⟨some TaskStatus.done, some "Shipped", none⟩
      ⟨"alice@corp.io", Role.core, "Alice"⟩
      [(1, ⟨"Ship it", none, "bob@corp.io", TaskStatus.pending, some "2025-01-31", none⟩)]
      ⟨"Ship it", none, "bob@corp.io", TaskStatus.pending, some "2025-01-31", none⟩
      ⟨"Shipped", none, "bob@corp.io", TaskStatus.done, some "2025-01-31", some 77⟩
      rfl (by decide)⟩

/-! ## C10: the default salary status is "paid" -/

/-- C10: a core-authenticated `POST /salary` whose body omits `status` creates
a record whose status is `paid`. -/
theorem salary_default_status_paid (w : CreateSalaryWire) (current : AuthUser)
    (store : List SalaryDoc)
    (hrole : current.role = Role.core)
    (hstat : w.status = none)
    (hamt : 0 ≤ w.amount) :
    create_salary_endpoint w current store =
      (Except.ok ⟨w.employee_email, w.amount, w.month, w.notes, SalaryStatus.paid⟩,
        store ++ [⟨w.employee_email, w.amount, w.month, w.notes, SalaryStatus.paid⟩]) := by
  have h1 : ¬(current.role ≠ Role.core) := fun hc => hc hrole
  simp only [create_salary_endpoint, create_salary, parseCreateSalary, hstat]
  rw [if_neg h1, if_pos hamt]
  rfl

/-- Witness for C10 at a concrete wire body with `status` omitted. -/
theorem salary_default_status_paid_witness :
    ((⟨"alice@corp.io", Role.core, "Alice"⟩ : AuthUser).role = Role.core) ∧
    ((⟨"carol@corp.io", 1000, "2025-01", none, none⟩ : CreateSalaryWire).status = none) ∧
    (0 ≤ (⟨"carol@corp.io", 1000, "2025-01", none, none⟩ : CreateSalaryWire).amount) ∧
    create_salary_endpoint ⟨"carol@corp.io", 1000, "2025-01", none, none⟩
        ⟨"alice@corp.io", Role.core, "Alice"⟩ [] =
      (Except.ok ⟨"carol@corp.io", 1000, "2025-01", none, SalaryStatus.paid⟩,
        [⟨"carol@corp.io", 1000, "2025-01", none, SalaryStatus.paid⟩]) :=
  ⟨rfl, rfl, by norm_num,
    salary_default_status_paid ⟨"carol@corp.io", 1000, "2025-01", none, none⟩
      ⟨"alice@corp.io", Role.core, "Alice"⟩ [] rfl rfl (by norm_num)⟩
